import Mathlib

/-!
Verification of the backup-companion job pipeline.

The Go sources are embedded shallowly: configuration structs become Lean
structures (maps become association lists), and every effectful operation
(mkdir, dump, tar, upload, remove) is recorded as an element of an explicit
effect trace, with the outcome of each external call supplied by an
environment value.  Functions keep the source's names and control flow.
-/

namespace BackupCompanion

/-- Association-list lookup, modelling a Go `map[string]T` read `m[k]`. -/
def lookup {β : Type} (k : String) : List (String × β) → Option β
  | [] => none
  | (k', v) :: rest => if k' = k then some v else lookup k rest

/-- `internal/models.OutputConfig`: `{Dir, Name}`. -/
structure OutputConfig where
  dir : String
  name : String
deriving DecidableEq, Repr

/-- `internal/models.DatabaseConfig`. -/
structure DatabaseConfig where
  driver : String
  host : String
  port : Nat
  user : String
  password : String
  name : String
deriving DecidableEq, Repr

/-- `internal/models.DirectoryConfig`. -/
structure DirectoryConfig where
  path : String
deriving DecidableEq, Repr

/-- `internal/models.DestinationConfig`. -/
structure DestinationConfig where
  provider : String
  bucketName : String
  accessKeyID : String
  secretAccessKey : String
  region : String
  endpointURL : String
deriving DecidableEq, Repr

/-- `internal/models.JobConfig`. -/
structure JobConfig where
  output : OutputConfig
  databases : List String
  directories : List String
  destinations : List String
deriving DecidableEq, Repr

/-- `internal/models.SourcesConfig`. -/
structure SourcesConfig where
  databases : List (String × DatabaseConfig)
  directories : List (String × DirectoryConfig)
deriving DecidableEq, Repr

/-- `internal/models.Config`. -/
structure Config where
  sources : SourcesConfig
  destinations : List (String × DestinationConfig)
  jobs : List (String × JobConfig)
deriving DecidableEq, Repr

/-! ## Reference validation (`internal/config/config.go`, `validateReferences`)

Each `fmt.Fprintf(&b, ...)` line of the Go function appends one formatted
violation line to a string builder; a violation line is embedded as one
constructor of `RefViolation`, and the single multi-line error as the list
of its lines. -/

/-- One line written to the builder by `validateReferences`. -/
inductive RefViolation where
  | missingOutput (job : String)
  | noSource (job : String)
  | noDestination (job : String)
  | unknownDatabase (job db : String)
  | unknownDirectory (job dir : String)
  | unknownDestination (job dst : String)
deriving DecidableEq, Repr

/-- The violation lines `validateReferences` emits for one job, in the
order of the Go checks: output dir/name, at-least-one-source,
at-least-one-destination, then the three reference loops. -/
def jobViolations (cfg : Config) (jobName : String) (job : JobConfig) :
    List RefViolation :=
  (if job.output.dir = "" ∨ job.output.name = "" then [.missingOutput jobName] else []) ++
  (if job.databases = [] ∧ job.directories = [] then [.noSource jobName] else []) ++
  (if job.destinations = [] then [.noDestination jobName] else []) ++
  job.databases.filterMap (fun db =>
    if lookup db cfg.sources.databases = none then some (.unknownDatabase jobName db) else none) ++
  job.directories.filterMap (fun dir =>
    if lookup dir cfg.sources.directories = none then some (.unknownDirectory jobName dir) else none) ++
  job.destinations.filterMap (fun dst =>
    if lookup dst cfg.destinations = none then some (.unknownDestination jobName dst) else none)

/-- The whole builder content: every job's violation lines, in job order. -/
def allViolations (cfg : Config) : List RefViolation :=
  cfg.jobs.flatMap (fun p => jobViolations cfg p.1 p.2)

/-- `validateReferences`: iterates all jobs, accumulating every violation;
returns the accumulated multi-line error iff the builder is non-empty. -/
def validateReferences (cfg : Config) : Except (List RefViolation) Unit :=
  if allViolations cfg = [] then .ok () else .error (allViolations cfg)

/-- Spec-side statement that a configuration has no reference violation:
every job passes all the listed rules. -/
def ReferenceValid (cfg : Config) : Prop :=
  ∀ jobName job, (jobName, job) ∈ cfg.jobs →
    job.output.dir ≠ "" ∧ job.output.name ≠ "" ∧
    (job.databases ≠ [] ∨ job.directories ≠ []) ∧
    job.destinations ≠ [] ∧
    (∀ db ∈ job.databases, lookup db cfg.sources.databases ≠ none) ∧
    (∀ dir ∈ job.directories, lookup dir cfg.sources.directories ≠ none) ∧
    (∀ dst ∈ job.destinations, lookup dst cfg.destinations ≠ none)

/-! ## Job execution model (`internal/backup/backup.go` and
`internal/backup/util`)

Every external call's result is supplied by a `JobEnv`; every filesystem or
network action the pipeline performs is recorded as an `Effect` in a trace. -/

/-- A `time.Time` instant, down to sub-second nanoseconds. -/
structure GoTime where
  year : Nat
  month : Nat
  day : Nat
  hour : Nat
  minute : Nat
  second : Nat
  nanos : Nat
deriving DecidableEq, Repr

/-- The ASCII digit character for `n`. -/
def digitChar (n : Nat) : Char := Char.ofNat (48 + n)

/-- Numeric value of an ASCII digit character. -/
def digitVal (c : Char) : Nat := c.toNat - 48

/-- Two-digit zero-padded rendering, as Go's `Format` does for `01`, `02`,
`15`, `04`, `05`. -/
def pad2 (n : Nat) : List Char := [digitChar (n / 10), digitChar (n % 10)]

/-- Four-digit zero-padded rendering, as Go's `Format` does for `2006`. -/
def pad4 (n : Nat) : List Char :=
  [digitChar (n / 1000), digitChar (n / 100 % 10), digitChar (n / 10 % 10), digitChar (n % 10)]

/-- `time.Now().Format("2006-01-02-15-04-05")`: the dash-separated calendar
fields at second granularity; sub-second nanoseconds are not printed. -/
def formatTimestamp (t : GoTime) : List Char :=
  pad4 t.year ++ ['-'] ++ pad2 t.month ++ ['-'] ++ pad2 t.day ++ ['-'] ++
  pad2 t.hour ++ ['-'] ++ pad2 t.minute ++ ['-'] ++ pad2 t.second

/-- `filepath.Join` of a cleaned directory path and a relative name. -/
def joinPath (dir name : String) : String := dir ++ "/" ++ name

/-- `filepath.Base`: the last path component. -/
def baseName (s : String) : String :=
  String.mk ((s.data.reverse.takeWhile (fun c => c ≠ '/')).reverse)

/-- The working-directory path built by `util.CreateBackupDir`:
`filepath.Join(output.Dir, output.Name+"-"+timestamp)`. -/
def backupDirPath (output : OutputConfig) (t : GoTime) : String :=
  joinPath output.dir (output.name ++ "-" ++ String.mk (formatTimestamp t))

/-- One observable action of a job run. -/
inductive Effect where
  | mkdirAll (path : String)
  | dumpDirectory (dirName : String) (backupDir : String)
  | dumpDatabase (dbName : String) (backupDir : String)
  | createTarGz (sourceDir targetFile : String)
  | newClient (dest : String)
  | uploadAttempt (dest bucket key filePath : String)
  | removeAll (path : String)
  | removeFile (path : String)
deriving DecidableEq, Repr

/-- Terminal state of one job run (spec §4.2 state machine). -/
inductive JobOutcome where
  | skippedValidation
  | dirCreateFailed
  | archiveFailed
  | completedWithUploadErrors
  | completed
deriving DecidableEq, Repr

/-- Results of the external calls a single job run makes: `none` means the
call succeeds, `some e` that it fails with message `e`. -/
structure JobEnv where
  dbPingErr : String → Option String
  destClientErr : String → Option String
  destConnErr : String → Option String
  mkdirErr : Option String
  time : GoTime
  tarErr : Option String
  upClientErr : String → Option String
  upConnErr : String → Option String
  uploadErr : String → Option String
  removeDirErr : Option String
  removeArchiveErr : Option String

/-- `validateJobDatabases`: for every database name of the job, resolve it in
the sources and probe the connection, collecting every failure message. -/
def validateJobDatabases (cfg : Config) (env : JobEnv) (jobName : String)
    (job : JobConfig) : List String :=
  job.databases.flatMap (fun dbName =>
    match lookup dbName cfg.sources.databases with
    | some _ =>
      match env.dbPingErr dbName with
      | some e => ["database " ++ dbName ++ " failed connection validation: " ++ e]
      | none => []
    | none => ["database " ++ dbName ++ " referenced by job " ++ jobName ++
               " not found in sources"])

/-- `validateJobDestinations`: for every destination name of the job, resolve
it, construct an S3 client and head-check the bucket, collecting every
failure message (a construction failure skips the connection check via
`continue`). -/
def validateJobDestinations (cfg : Config) (env : JobEnv) (jobName : String)
    (job : JobConfig) : List String :=
  job.destinations.flatMap (fun destName =>
    match lookup destName cfg.destinations with
    | some _ =>
      match env.destClientErr destName with
      | some e => ["failed to create S3 client for destination " ++ destName ++ ": " ++ e]
      | none =>
        match env.destConnErr destName with
        | some e => ["destination " ++ destName ++ " failed connection validation: " ++ e]
        | none => []
    | none => ["destination " ++ destName ++ " referenced by job " ++ jobName ++
               " not found in config"])

/-- `getJobType`: classify a job by its source composition. -/
def getJobType (job : JobConfig) : String :=
  if job.directories ≠ [] ∧ job.databases = [] then "files-only"
  else if job.directories = [] ∧ job.databases ≠ [] then "databases-only"
  else "both"

/-- `filesystem.BackupFilesOnly`: copy each resolvable directory source into
the working directory; an unresolvable name is only logged. -/
def backupFilesOnly (cfg : Config) (job : JobConfig) (backupDir : String) :
    List Effect :=
  job.directories.flatMap (fun dirName =>
    match lookup dirName cfg.sources.directories with
    | some _ => [.dumpDirectory dirName backupDir]
    | none => [])

/-- `database.BackupDatabasesOnly`: dump each resolvable database source into
the working directory; an unresolvable name is only logged. -/
def backupDatabasesOnly (cfg : Config) (job : JobConfig) (backupDir : String) :
    List Effect :=
  job.databases.flatMap (fun dbName =>
    match lookup dbName cfg.sources.databases with
    | some _ => [.dumpDatabase dbName backupDir]
    | none => [])

/-- The `switch getJobType(job)` dispatch of `backupJob`. -/
def dumpEffects (cfg : Config) (job : JobConfig) (backupDir : String) :
    List Effect :=
  if getJobType job = "files-only" then backupFilesOnly cfg job backupDir
  else if getJobType job = "databases-only" then backupDatabasesOnly cfg job backupDir
  else backupFilesOnly cfg job backupDir ++ backupDatabasesOnly cfg job backupDir

/-- Modelled from the spec: one destination's step of
`remotestorage.UploadArchiveToDestinations`, whose body is absent from the
sources (only its call site in `backupJob` and the older inlined loop of the
`part_004` variant of `backupJob` remain).  Per spec §4.2 Uploading:
independently construct a client, validate reachability, then upload; any
failure is that destination's collected error. -/
def uploadToDestination (cfg : Config) (env : JobEnv) (jobName : String)
    (archivePath objectKey destName : String) : List String × List Effect :=
  match lookup destName cfg.destinations with
  | some destConfig =>
    match env.upClientErr destName with
    | some e => (["failed to create S3 client for destination " ++ destName ++ ": " ++ e],
                 [.newClient destName])
    | none =>
      match env.upConnErr destName with
      | some e => (["destination " ++ destName ++ " failed connection validation: " ++ e],
                   [.newClient destName])
      | none =>
        match env.uploadErr destName with
        | some e =>
          (["failed to upload archive to destination " ++ destName ++ ": " ++ e],
           [.newClient destName,
            .uploadAttempt destName destConfig.bucketName objectKey archivePath])
        | none =>
          ([], [.newClient destName,
                .uploadAttempt destName destConfig.bucketName objectKey archivePath])
  | none => (["destination " ++ destName ++ " referenced by job " ++ jobName ++
              " not found in config"], [])

/-- The per-destination loop: a destination's failure moves to the next
destination (`continue`), never aborts the loop. -/
def uploadLoop (cfg : Config) (env : JobEnv) (jobName : String)
    (archivePath objectKey : String) : List String → List String × List Effect
  | [] => ([], [])
  | destName :: rest =>
    let r := uploadToDestination cfg env jobName archivePath objectKey destName
    let rr := uploadLoop cfg env jobName archivePath objectKey rest
    (r.1 ++ rr.1, r.2 ++ rr.2)

/-- Modelled from the spec: `remotestorage.UploadArchiveToDestinations`
(absent from the sources; see `uploadToDestination`).  Uploads the archive to
every destination of the job under the object key
`filepath.Base(archivePath)` and returns all collected failures. -/
def uploadArchiveToDestinations (cfg : Config) (env : JobEnv) (jobName : String)
    (job : JobConfig) (archivePath : String) : List String × List Effect :=
  uploadLoop cfg env jobName archivePath (baseName archivePath) job.destinations

/-- Result of one job run: terminal outcome, effect trace, error log. -/
structure RunResult where
  outcome : JobOutcome
  trace : List Effect
  errLog : List String
deriving Repr

/-- `backupJob` (`internal/backup/backup.go`): validate sources, validate
destinations, create the working directory, register cleanup of the working
directory and the archive path, dump, archive, upload. -/
def backupJob (cfg : Config) (env : JobEnv) (jobName : String)
    (job : JobConfig) : RunResult :=
  let dbErrs := validateJobDatabases cfg env jobName job
  if dbErrs ≠ [] then ⟨.skippedValidation, [], dbErrs⟩
  else
    let destErrs := validateJobDestinations cfg env jobName job
    if destErrs ≠ [] then ⟨.skippedValidation, [], destErrs⟩
    else
      match env.mkdirErr with
      | some e => ⟨.dirCreateFailed, [], [e]⟩
      | none =>
        let backupDir := backupDirPath job.output env.time
        let archivePath := backupDir ++ ".tar.gz"
        let work := Effect.mkdirAll backupDir :: dumpEffects cfg job backupDir
        let cleanup := [Effect.removeAll backupDir, Effect.removeFile archivePath]
        let cleanupLog :=
          (match env.removeDirErr with | some e => [e] | none => []) ++
          (match env.removeArchiveErr with | some e => [e] | none => [])
        match env.tarErr with
        | some e =>
          ⟨.archiveFailed, work ++ [.createTarGz backupDir archivePath] ++ cleanup,
           [e] ++ cleanupLog⟩
        | none =>
          let up := uploadArchiveToDestinations cfg env jobName job archivePath
          ⟨if up.1 ≠ [] then .completedWithUploadErrors else .completed,
           work ++ [.createTarGz backupDir archivePath] ++ up.2 ++ cleanup,
           up.1 ++ cleanupLog⟩

/-- The `for jobName, job := range cfg.Jobs` loop of `Execute`. -/
def executeLoop (cfg : Config) (envs : String → JobEnv) :
    List (String × JobConfig) → List (String × RunResult)
  | [] => []
  | (jobName, job) :: rest =>
    (jobName, backupJob cfg (envs jobName) jobName job) :: executeLoop cfg envs rest

/-- `Execute`: run `backupJob` for every configured job. -/
def Execute (cfg : Config) (envs : String → JobEnv) : List (String × RunResult) :=
  executeLoop cfg envs cfg.jobs

/-! ## Archiver (`util.CreateTarGz`, src/unnamed/part_002)

`CreateTarGz` walks the source directory with `filepath.Walk`, writing one
tar header per visited entry whose `Name` is the path relative to the walk
root (the root itself becomes `.`, modelled as the empty component list),
and streaming the contents of non-directory entries.  Directory trees are
modelled as finite labelled trees and paths as component lists (a POSIX file
name cannot contain `/`). -/

/-- A directory tree: files carry their byte contents. -/
inductive FsTree where
  | file (data : List Nat)
  | dir (children : List (String × FsTree))

/-- What one written tar header stands for: a directory entry, or a file
entry with the streamed contents. -/
inductive TarKind where
  | dirE
  | fileE (data : List Nat)

/-- One archive entry: relative path (as components) plus kind. -/
structure TarEntry where
  path : List String
  kind : TarKind

mutual
/-- The entries `CreateTarGz` writes for the tree at the walk root: the root
directory itself first (relative path `.`, i.e. `[]`), then every child in
order, recursively, each child's entries prefixed with its name — so a
directory entry is written even when the directory contains no files. -/
def walkTree : FsTree → List TarEntry
  | .file d => [⟨[], .fileE d⟩]
  | .dir cs => ⟨[], .dirE⟩ :: walkChildren cs
/-- The entries written for a directory's children, in order. -/
def walkChildren : List (String × FsTree) → List TarEntry
  | [] => []
  | (n, t) :: rest =>
    (walkTree t).map (fun e => ⟨n :: e.path, e.kind⟩) ++ walkChildren rest
end

/-- The child named `n`, defaulting to a fresh empty directory (`MkdirAll`
semantics for intermediate directories). -/
def childD (cs : List (String × FsTree)) (n : String) : FsTree :=
  (lookup n cs).getD (.dir [])

/-- Replace the child named `n`, or append it if absent. -/
def setChild : List (String × FsTree) → String → FsTree → List (String × FsTree)
  | [], n, t => [(n, t)]
  | (n', t') :: rest, n, t =>
    if n' = n then (n', t) :: rest else (n', t') :: setChild rest n t

/-- Modelled from the spec: applying one archive entry during extraction
(extraction itself is not part of the repository; this is standard tar
extraction into an existing target directory).  A directory entry ensures
the directory exists; a file entry (re)writes the file; intermediate
directories are descended into, created if missing. -/
def applyEntryPath : FsTree → List String → TarKind → FsTree
  | s, [], .dirE => s
  | _, [], .fileE d => .file d
  | .dir cs, n :: p, k => .dir (setChild cs n (applyEntryPath (childD cs n) p k))
  | .file d, _ :: _, _ => .file d

/-- `applyEntryPath` on an entry's components. -/
def applyEntry (s : FsTree) (e : TarEntry) : FsTree :=
  applyEntryPath s e.path e.kind

/-- Modelled from the spec: extracting an archive applies its entries in
order, starting from an empty target directory. -/
def extract (es : List TarEntry) : FsTree :=
  es.foldl applyEntry (.dir [])

mutual
/-- Well-formed tree: sibling names are distinct at every level (true of any
tree read back from a real filesystem). -/
def wfTree : FsTree → Bool
  | .file _ => true
  | .dir cs => wfChildren cs
/-- Well-formedness of a sibling list. -/
def wfChildren : List (String × FsTree) → Bool
  | [] => true
  | (n, t) :: rest =>
    !(rest.any (fun c => c.1 == n)) && wfTree t && wfChildren rest
end

/-- Example tree with an empty subdirectory, a top-level file, and a nested
file. -/
def exampleTree : FsTree :=
  .dir [("empty", .dir []),
        ("notes.txt", .file [104, 105]),
        ("sub", .dir [("inner.txt", .file [33])])]

/-! ## `config.ValidateAllDestinations` and `remotestorage.NewS3Client`

`NewS3Client` returns a nil client pointer together with its error; the
`ValidateAllDestinations` loop records that error but does not `continue`,
and then calls `ValidateConnection` through the possibly-nil pointer. -/

/-- The value a successful `NewS3Client` returns: a client capturing the
destination's bucket. -/
structure S3Client where
  bucketName : String
deriving DecidableEq, Repr

/-- Results of the external calls `ValidateAllDestinations` makes, per
destination name. -/
structure DestEnv where
  loadCfgErr : String → Option String
  headBucketErr : String → Option String

/-- `remotestorage.NewS3Client`: on a config-load failure it returns
`(nil, err)`; otherwise a non-nil client and no error. -/
def NewS3Client (env : DestEnv) (destName : String) (cfg : DestinationConfig) :
    Option S3Client × Option String :=
  match env.loadCfgErr destName with
  | some e => (none, some ("failed to load base AWS config: " ++ e))
  | none => (some ⟨cfg.bucketName⟩, none)

/-- `(*S3Client).ValidateConnection` invoked through a possibly-nil pointer:
a nil receiver dereferences `c.client` and the process crashes
(`Except.error ()`); otherwise the head-bucket result is returned. -/
def validateConnectionPtr (env : DestEnv) (c : Option S3Client) :
    Except Unit (Option String) :=
  match c with
  | none => .error ()
  | some cl => .ok (env.headBucketErr cl.bucketName)

/-- The loop body of `config.ValidateAllDestinations`: append the
construction error if any, then — with no `continue` — call
`ValidateConnection` on the returned client pointer. A crash aborts
everything. -/
def ValidateAllDestinationsLoop (env : DestEnv) :
    List (String × DestinationConfig) → List String → Except Unit (List String)
  | [], acc => .ok acc
  | (destName, destCfg) :: rest, acc =>
    let r := NewS3Client env destName destCfg
    let acc1 := match r.2 with
      | some e => acc ++
          ["Destination " ++ destName ++ " failed to establish S3 connection: " ++ e]
      | none => acc
    match validateConnectionPtr env r.1 with
    | .error () => .error ()
    | .ok oe =>
      let acc2 := match oe with
        | some e => acc1 ++
            ["Destination " ++ destName ++ " failed to establish S3 connection: " ++ e]
        | none => acc1
      ValidateAllDestinationsLoop env rest acc2

/-- `config.ValidateAllDestinations`: `.error ()` models the run crashing on
a nil-pointer dereference; otherwise the collected validation errors are
reported if any exist. -/
def ValidateAllDestinations (env : DestEnv) (cfg : Config) :
    Except Unit (Except (List String) Unit) :=
  match ValidateAllDestinationsLoop env cfg.destinations [] with
  | .error () => .error ()
  | .ok errs => .ok (if errs ≠ [] then .error errs else .ok ())

/-- Example destination environment whose only client construction fails. -/
def exampleDestEnvFail : DestEnv :=
  { loadCfgErr := fun _ => some "no credentials"
    headBucketErr := fun _ => none }

/-- Example job naming two databases that exist nowhere in the sources. -/
def exampleBadJob : JobConfig :=
  { output := { dir := "/backups", name := "nightly" }
    databases := ["dbA", "dbB"]
    directories := []
    destinations := ["primary"] }

/-- Example destination used by the example configurations. -/
def exampleDest : DestinationConfig :=
  { provider := "minio", bucketName := "bkt", accessKeyID := "k"
    secretAccessKey := "s", region := "", endpointURL := "http://mi.example:9000" }

/-- Example configuration whose single job references two unknown databases. -/
def exampleBadConfig : Config :=
  { sources := { databases := [], directories := [] }
    destinations := [("primary", exampleDest)]
    jobs := [("nightly", exampleBadJob)] }

/-- Inverse of `formatTimestamp`: reads the six calendar fields back from a
19-character dash-separated rendering. -/
def parseTimestamp : List Char → Option (Nat × Nat × Nat × Nat × Nat × Nat)
  | [y3, y2, y1, y0, _, mo1, mo0, _, d1, d0, _, h1, h0, _, mi1, mi0, _, s1, s0] =>
    some (1000 * digitVal y3 + 100 * digitVal y2 + 10 * digitVal y1 + digitVal y0,
          10 * digitVal mo1 + digitVal mo0,
          10 * digitVal d1 + digitVal d0,
          10 * digitVal h1 + digitVal h0,
          10 * digitVal mi1 + digitVal mi0,
          10 * digitVal s1 + digitVal s0)
  | _ => none

/-- Calendar fields small enough for their zero-padded widths (always true of
a real `time.Time`). -/
def inRange (t : GoTime) : Prop :=
  t.year < 10000 ∧ t.month < 100 ∧ t.day < 100 ∧
  t.hour < 100 ∧ t.minute < 100 ∧ t.second < 100

instance (t : GoTime) : Decidable (inRange t) := by unfold inRange; infer_instance

/-- The second-granularity calendar tuple of an instant. -/
def secondTuple (t : GoTime) : Nat × Nat × Nat × Nat × Nat × Nat :=
  (t.year, t.month, t.day, t.hour, t.minute, t.second)

/-- Example instant: 2026-10-11 07:30:05.000000000. -/
def exampleTime : GoTime := ⟨2026, 10, 11, 7, 30, 5, 0⟩

/-- A later instant within the same clock second as `exampleTime`. -/
def exampleTimeLater : GoTime := ⟨2026, 10, 11, 7, 30, 5, 999999999⟩

/-- Example environment in which every external call succeeds. -/
def exampleEnvOK : JobEnv :=
  { dbPingErr := fun _ => none
    destClientErr := fun _ => none
    destConnErr := fun _ => none
    mkdirErr := none
    time := exampleTime
    tarErr := none
    upClientErr := fun _ => none
    upConnErr := fun _ => none
    uploadErr := fun _ => none
    removeDirErr := none
    removeArchiveErr := none }

/-- Example job whose references all resolve. -/
def exampleGoodJob : JobConfig :=
  { output := { dir := "/backups", name := "nightly" }
    databases := []
    directories := ["data"]
    destinations := ["primary"] }

/-- Example configuration whose single job validates cleanly. -/
def exampleGoodConfig : Config :=
  { sources := { databases := [], directories := [("data", { path := "/srv/data" })] }
    destinations := [("primary", exampleDest)]
    jobs := [("nightly", exampleGoodJob)] }

/-- `{env with removeDirErr := e1, removeArchiveErr := e2}`: the same
environment with different cleanup-call results. -/
def cleanupEnv (env : JobEnv) (e1 e2 : Option String) : JobEnv :=
  { env with removeDirErr := e1, removeArchiveErr := e2 }

/-- The archive path derived in `backupJob`: `backupDir + ".tar.gz"`. -/
def jobArchivePath (job : JobConfig) (env : JobEnv) : String :=
  backupDirPath job.output env.time ++ ".tar.gz"

/-- Example job uploading to two destinations. -/
def exampleTwoDestJob : JobConfig :=
  { output := { dir := "/backups", name := "nightly" }
    databases := []
    directories := ["data"]
    destinations := ["destA", "destB"] }

/-- Example configuration for the two-destination job. -/
def exampleTwoDestConfig : Config :=
  { sources := { databases := [], directories := [("data", { path := "/srv/data" })] }
    destinations := [("destA", exampleDest), ("destB", exampleDest)]
    jobs := [("nightly", exampleTwoDestJob)] }

/-- Example environment in which client construction for `destA` fails during
the upload phase and every other call succeeds. -/
def exampleUploadFailEnv : JobEnv :=
  { exampleEnvOK with
    upClientErr := fun d => if d = "destA" then some "unreachable" else none }

lemma jobViolations_eq_nil_iff (cfg : Config) (jobName : String) (job : JobConfig) :
    jobViolations cfg jobName job = [] ↔
      (job.output.dir ≠ "" ∧ job.output.name ≠ "" ∧
       (job.databases ≠ [] ∨ job.directories ≠ []) ∧
       job.destinations ≠ [] ∧
       (∀ db ∈ job.databases, lookup db cfg.sources.databases ≠ none) ∧
       (∀ dir ∈ job.directories, lookup dir cfg.sources.directories ≠ none) ∧
       (∀ dst ∈ job.destinations, lookup dst cfg.destinations ≠ none)) := by
  simp only [jobViolations, List.append_eq_nil, List.filterMap_eq_nil_iff]
  constructor
  · rintro ⟨⟨⟨⟨⟨h1, h2⟩, h3⟩, h4⟩, h5⟩, h6⟩
    refine ⟨?_, ?_, ?_, ?_, ?_, ?_, ?_⟩
    · intro h; rw [if_pos (Or.inl h)] at h1; exact absurd h1 (by simp)
    · intro h; rw [if_pos (Or.inr h)] at h1; exact absurd h1 (by simp)
    · by_contra h; push_neg at h
      rw [if_pos h] at h2; exact absurd h2 (by simp)
    · intro h; rw [if_pos h] at h3; exact absurd h3 (by simp)
    · intro db hdb h; have := h4 db hdb; rw [if_pos h] at this; simp at this
    · intro dir hdir h; have := h5 dir hdir; rw [if_pos h] at this; simp at this
    · intro dst hdst h; have := h6 dst hdst; rw [if_pos h] at this; simp at this
  · rintro ⟨h1, h2, h3, h4, h5, h6, h7⟩
    refine ⟨⟨⟨⟨⟨?_, ?_⟩, ?_⟩, ?_⟩, ?_⟩, ?_⟩
    · rw [if_neg]; push_neg; exact ⟨h1, h2⟩
    · rw [if_neg]; rintro ⟨ha, hb⟩
      rcases h3 with h | h
      · exact h ha
      · exact h hb
    · rw [if_neg h4]
    · intro db hdb; rw [if_neg (h5 db hdb)]
    · intro dir hdir; rw [if_neg (h6 dir hdir)]
    · intro dst hdst; rw [if_neg (h7 dst hdst)]

lemma mem_jobViolations_missingOutput {cfg : Config} {jobName : String} {job : JobConfig}
    (h : job.output.dir = "" ∨ job.output.name = "") :
    RefViolation.missingOutput jobName ∈ jobViolations cfg jobName job := by
  unfold jobViolations
  rw [if_pos h]
  simp

lemma mem_jobViolations_noSource {cfg : Config} {jobName : String} {job : JobConfig}
    (h : job.databases = [] ∧ job.directories = []) :
    RefViolation.noSource jobName ∈ jobViolations cfg jobName job := by
  unfold jobViolations
  rw [if_pos h]
  simp

lemma mem_jobViolations_noDestination {cfg : Config} {jobName : String} {job : JobConfig}
    (h : job.destinations = []) :
    RefViolation.noDestination jobName ∈ jobViolations cfg jobName job := by
  unfold jobViolations
  rw [if_pos h]
  simp

lemma mem_jobViolations_unknownDatabase {cfg : Config} {jobName : String} {job : JobConfig}
    {db : String} (hmem : db ∈ job.databases) (h : lookup db cfg.sources.databases = none) :
    RefViolation.unknownDatabase jobName db ∈ jobViolations cfg jobName job := by
  have hd : RefViolation.unknownDatabase jobName db ∈ job.databases.filterMap (fun db =>
      if lookup db cfg.sources.databases = none
      then some (.unknownDatabase jobName db) else none) :=
    List.mem_filterMap.mpr ⟨db, hmem, by rw [if_pos h]⟩
  unfold jobViolations
  exact List.mem_append_left _ (List.mem_append_left _ (List.mem_append_right _ hd))

lemma mem_jobViolations_unknownDirectory {cfg : Config} {jobName : String} {job : JobConfig}
    {dir : String} (hmem : dir ∈ job.directories)
    (h : lookup dir cfg.sources.directories = none) :
    RefViolation.unknownDirectory jobName dir ∈ jobViolations cfg jobName job := by
  have hd : RefViolation.unknownDirectory jobName dir ∈ job.directories.filterMap (fun dir =>
      if lookup dir cfg.sources.directories = none
      then some (.unknownDirectory jobName dir) else none) :=
    List.mem_filterMap.mpr ⟨dir, hmem, by rw [if_pos h]⟩
  unfold jobViolations
  exact List.mem_append_left _ (List.mem_append_right _ hd)

lemma mem_jobViolations_unknownDestination {cfg : Config} {jobName : String} {job : JobConfig}
    {dst : String} (hmem : dst ∈ job.destinations) (h : lookup dst cfg.destinations = none) :
    RefViolation.unknownDestination jobName dst ∈ jobViolations cfg jobName job := by
  have hd : RefViolation.unknownDestination jobName dst ∈ job.destinations.filterMap (fun dst =>
      if lookup dst cfg.destinations = none
      then some (.unknownDestination jobName dst) else none) :=
    List.mem_filterMap.mpr ⟨dst, hmem, by rw [if_pos h]⟩
  unfold jobViolations
  exact List.mem_append_right _ hd

lemma mem_allViolations {cfg : Config} {jobName : String} {job : JobConfig} {v : RefViolation}
    (hjob : (jobName, job) ∈ cfg.jobs) (hv : v ∈ jobViolations cfg jobName job) :
    v ∈ allViolations cfg :=
  List.mem_flatMap.mpr ⟨(jobName, job), hjob, hv⟩

lemma validateReferences_error_eq {cfg : Config} {vs : List RefViolation}
    (h : validateReferences cfg = .error vs) : vs = allViolations cfg := by
  unfold validateReferences at h
  split at h
  · exact absurd h (by simp)
  · exact (Except.error.injEq _ _).mp h.symm |>.symm ▸ rfl

/-- **C3.** Reference validation checks every job against all listed rules and
accumulates every violation across all jobs into one error; it succeeds exactly
when no violation exists, and on failure the reported error contains an entry
for each individual violation (in particular it never stops at the first). -/
theorem validateReferences_checks_all (cfg : Config) :
    (validateReferences cfg = .ok () ↔ ReferenceValid cfg) ∧
    (∀ vs, validateReferences cfg = .error vs →
      ∀ jobName job, (jobName, job) ∈ cfg.jobs →
        ((job.output.dir = "" ∨ job.output.name = "") →
          RefViolation.missingOutput jobName ∈ vs) ∧
        ((job.databases = [] ∧ job.directories = []) →
          RefViolation.noSource jobName ∈ vs) ∧
        (job.destinations = [] → RefViolation.noDestination jobName ∈ vs) ∧
        (∀ db ∈ job.databases, lookup db cfg.sources.databases = none →
          RefViolation.unknownDatabase jobName db ∈ vs) ∧
        (∀ dir ∈ job.directories, lookup dir cfg.sources.directories = none →
          RefViolation.unknownDirectory jobName dir ∈ vs) ∧
        (∀ dst ∈ job.destinations, lookup dst cfg.destinations = none →
          RefViolation.unknownDestination jobName dst ∈ vs)) := by
  constructor
  · have hok : validateReferences cfg = .ok () ↔ allViolations cfg = [] := by
      unfold validateReferences
      split
      · next h => simp [h]
      · next h => simp [h]
    rw [hok]
    unfold allViolations
    rw [List.flatMap_eq_nil_iff]
    constructor
    · intro h jobName job hjob
      exact (jobViolations_eq_nil_iff cfg jobName job).mp (h (jobName, job) hjob)
    · intro h p hp
      exact (jobViolations_eq_nil_iff cfg p.1 p.2).mpr (h p.1 p.2 (by simpa using hp))
  · intro vs herr jobName job hjob
    have hvs : vs = allViolations cfg := validateReferences_error_eq herr
    subst hvs
    refine ⟨?_, ?_, ?_, ?_, ?_, ?_⟩
    · intro h; exact mem_allViolations hjob (mem_jobViolations_missingOutput h)
    · intro h; exact mem_allViolations hjob (mem_jobViolations_noSource h)
    · intro h; exact mem_allViolations hjob (mem_jobViolations_noDestination h)
    · intro db hdb h; exact mem_allViolations hjob (mem_jobViolations_unknownDatabase hdb h)
    · intro dir hdir h; exact mem_allViolations hjob (mem_jobViolations_unknownDirectory hdir h)
    · intro dst hdst h; exact mem_allViolations hjob (mem_jobViolations_unknownDestination hdst h)

/-- Witness for C3: a job naming two nonexistent databases yields two distinct
error entries, both present in the single reported error. -/
theorem validateReferences_checks_all_witness :
    RefViolation.unknownDatabase "nightly" "dbA" ∈
      ([.unknownDatabase "nightly" "dbA", .unknownDatabase "nightly" "dbB"] :
        List RefViolation) ∧
    RefViolation.unknownDatabase "nightly" "dbB" ∈
      ([.unknownDatabase "nightly" "dbA", .unknownDatabase "nightly" "dbB"] :
        List RefViolation) := by
  have h := (validateReferences_checks_all exampleBadConfig).2
    [.unknownDatabase "nightly" "dbA", .unknownDatabase "nightly" "dbB"]
    rfl "nightly" exampleBadJob (by simp [exampleBadConfig])
  exact ⟨h.2.2.2.1 "dbA" (by simp [exampleBadJob]) rfl,
         h.2.2.2.1 "dbB" (by simp [exampleBadJob]) rfl⟩

lemma executeLoop_eq_map (cfg : Config) (envs : String → JobEnv) :
    ∀ l : List (String × JobConfig),
      executeLoop cfg envs l = l.map (fun p => (p.1, backupJob cfg (envs p.1) p.1 p.2))
  | [] => rfl
  | (n, j) :: rest => by
    simp only [executeLoop, List.map_cons]
    exact congrArg _ (executeLoop_eq_map cfg envs rest)

/-- **C5.** The runner invokes the orchestrator exactly once per configured
job, in configuration order; each job's entry is computed from that job and
its own environment alone, so no job's failure prevents, stops, or retries a
sibling. -/
theorem execute_once_per_job (cfg : Config) (envs : String → JobEnv) :
    Execute cfg envs = cfg.jobs.map (fun p => (p.1, backupJob cfg (envs p.1) p.1 p.2)) ∧
    (Execute cfg envs).length = cfg.jobs.length := by
  have h := executeLoop_eq_map cfg envs cfg.jobs
  exact ⟨h, by rw [Execute, h, List.length_map]⟩

/-- **C2.** A job whose source or destination validation produced at least one
error is recorded as `SkippedValidation` and performs no work at all: its
effect trace is empty (no working directory, no dump, no archive, no upload). -/
theorem validation_failure_skips_job (cfg : Config) (env : JobEnv)
    (jobName : String) (job : JobConfig)
    (h : validateJobDatabases cfg env jobName job ≠ [] ∨
         validateJobDestinations cfg env jobName job ≠ []) :
    (backupJob cfg env jobName job).outcome = .skippedValidation ∧
    (backupJob cfg env jobName job).trace = [] := by
  unfold backupJob
  by_cases hdb : validateJobDatabases cfg env jobName job = []
  · rcases h with h | h
    · exact absurd hdb h
    · simp [hdb, h]
  · simp [hdb]

/-- Witness for C2: a job referencing two unknown databases is skipped with an
empty trace. -/
theorem validation_failure_skips_job_witness :
    (backupJob exampleBadConfig exampleEnvOK "nightly" exampleBadJob).outcome =
      .skippedValidation ∧
    (backupJob exampleBadConfig exampleEnvOK "nightly" exampleBadJob).trace = [] :=
  validation_failure_skips_job exampleBadConfig exampleEnvOK "nightly" exampleBadJob
    (Or.inl (by decide))

lemma validateJobDatabases_cleanupEnv (cfg : Config) (env : JobEnv)
    (e1 e2 : Option String) (jobName : String) (job : JobConfig) :
    validateJobDatabases cfg (cleanupEnv env e1 e2) jobName job =
      validateJobDatabases cfg env jobName job := rfl

lemma validateJobDestinations_cleanupEnv (cfg : Config) (env : JobEnv)
    (e1 e2 : Option String) (jobName : String) (job : JobConfig) :
    validateJobDestinations cfg (cleanupEnv env e1 e2) jobName job =
      validateJobDestinations cfg env jobName job := rfl

lemma uploadLoop_cleanupEnv (cfg : Config) (env : JobEnv) (e1 e2 : Option String)
    (jobName archivePath objectKey : String) :
    ∀ l, uploadLoop cfg (cleanupEnv env e1 e2) jobName archivePath objectKey l =
      uploadLoop cfg env jobName archivePath objectKey l
  | [] => rfl
  | destName :: rest => by
    simp only [uploadLoop,
      uploadLoop_cleanupEnv cfg env e1 e2 jobName archivePath objectKey rest]
    rfl

/-- **C1.** Once a job's working directory has been created, every terminal
path (archive failure, partial upload failure, success) ends by removing both
the working directory and the derived archive path, and the results of those
cleanup calls never change the job's recorded outcome. -/
theorem cleanup_always_runs (cfg : Config) (env : JobEnv) (jobName : String)
    (job : JobConfig)
    (hdb : validateJobDatabases cfg env jobName job = [])
    (hdest : validateJobDestinations cfg env jobName job = [])
    (hmk : env.mkdirErr = none) :
    (∃ pre, (backupJob cfg env jobName job).trace =
        pre ++ [Effect.removeAll (backupDirPath job.output env.time),
                Effect.removeFile (backupDirPath job.output env.time ++ ".tar.gz")]) ∧
    ∀ e1 e2, (backupJob cfg (cleanupEnv env e1 e2) jobName job).outcome =
      (backupJob cfg env jobName job).outcome := by
  constructor
  · unfold backupJob
    simp only [hdb, hdest, hmk, ne_eq, not_true_eq_false, if_false, ite_false]
    cases htar : env.tarErr with
    | some e =>
      refine ⟨Effect.mkdirAll (backupDirPath job.output env.time) ::
        dumpEffects cfg job (backupDirPath job.output env.time) ++
        [Effect.createTarGz (backupDirPath job.output env.time)
          (backupDirPath job.output env.time ++ ".tar.gz")], ?_⟩
      simp
    | none =>
      refine ⟨Effect.mkdirAll (backupDirPath job.output env.time) ::
        dumpEffects cfg job (backupDirPath job.output env.time) ++
        [Effect.createTarGz (backupDirPath job.output env.time)
          (backupDirPath job.output env.time ++ ".tar.gz")] ++
        (uploadArchiveToDestinations cfg env jobName job
          (backupDirPath job.output env.time ++ ".tar.gz")).2, ?_⟩
      simp
  · intro e1 e2
    have hdb' := validateJobDatabases_cleanupEnv cfg env e1 e2 jobName job
    have hdest' := validateJobDestinations_cleanupEnv cfg env e1 e2 jobName job
    have hup : uploadArchiveToDestinations cfg (cleanupEnv env e1 e2) jobName job
        (backupDirPath job.output env.time ++ ".tar.gz") =
        uploadArchiveToDestinations cfg env jobName job
        (backupDirPath job.output env.time ++ ".tar.gz") := by
      unfold uploadArchiveToDestinations
      exact uploadLoop_cleanupEnv cfg env e1 e2 jobName _ _ job.destinations
    have hmk' : (cleanupEnv env e1 e2).mkdirErr = none := hmk
    have htime : (cleanupEnv env e1 e2).time = env.time := rfl
    unfold backupJob
    simp only [hdb, hdb', hdest, hdest', hmk, hmk', htime, ne_eq, not_true_eq_false,
      if_false, ite_false]
    cases htar : env.tarErr with
    | some e =>
      have htar' : (cleanupEnv env e1 e2).tarErr = some e := htar
      simp [htar, htar']
    | none =>
      have htar' : (cleanupEnv env e1 e2).tarErr = none := htar
      simp [htar, htar', hup]

/-- Witness for C1: in a fully successful run the trace ends with the two
removals, and failing both cleanup calls leaves the outcome unchanged. -/
theorem cleanup_always_runs_witness :
    (∃ pre, (backupJob exampleGoodConfig exampleEnvOK "nightly" exampleGoodJob).trace =
        pre ++ [Effect.removeAll (backupDirPath exampleGoodJob.output exampleEnvOK.time),
                Effect.removeFile
                  (backupDirPath exampleGoodJob.output exampleEnvOK.time ++ ".tar.gz")]) ∧
    (backupJob exampleGoodConfig (cleanupEnv exampleEnvOK (some "rm failed") (some "rm failed"))
        "nightly" exampleGoodJob).outcome =
      (backupJob exampleGoodConfig exampleEnvOK "nightly" exampleGoodJob).outcome := by
  have h := cleanup_always_runs exampleGoodConfig exampleEnvOK "nightly" exampleGoodJob
    rfl rfl rfl
  exact ⟨h.1, h.2 (some "rm failed") (some "rm failed")⟩

lemma uploadLoop_eq_flatMap (cfg : Config) (env : JobEnv)
    (jobName ap key : String) :
    ∀ l, uploadLoop cfg env jobName ap key l =
      (l.flatMap (fun d => (uploadToDestination cfg env jobName ap key d).1),
       l.flatMap (fun d => (uploadToDestination cfg env jobName ap key d).2))
  | [] => rfl
  | d :: rest => by
    simp only [uploadLoop, uploadLoop_eq_flatMap cfg env jobName ap key rest,
      List.flatMap_cons]

/-- **C4.** The upload phase processes every destination of the job
independently: the collected errors and the effect trace are the
concatenation of each destination's own contribution (so one destination's
failure cannot prevent the others' attempts), every resolvable destination
gets a client-construction attempt, and the job's outcome is
`CompletedWithUploadErrors` exactly when some per-destination failure was
collected — never a silent success, never an abort. -/
theorem upload_failures_isolated (cfg : Config) (env : JobEnv)
    (jobName : String) (job : JobConfig)
    (hdb : validateJobDatabases cfg env jobName job = [])
    (hdest : validateJobDestinations cfg env jobName job = [])
    (hmk : env.mkdirErr = none) (htar : env.tarErr = none) :
    (uploadArchiveToDestinations cfg env jobName job (jobArchivePath job env) =
      (job.destinations.flatMap (fun d =>
         (uploadToDestination cfg env jobName (jobArchivePath job env)
            (baseName (jobArchivePath job env)) d).1),
       job.destinations.flatMap (fun d =>
         (uploadToDestination cfg env jobName (jobArchivePath job env)
            (baseName (jobArchivePath job env)) d).2))) ∧
    (∀ d ∈ job.destinations,
       Effect.newClient d ∈
         (uploadArchiveToDestinations cfg env jobName job (jobArchivePath job env)).2 ∨
       lookup d cfg.destinations = none) ∧
    ((backupJob cfg env jobName job).outcome =
       if (uploadArchiveToDestinations cfg env jobName job (jobArchivePath job env)).1 ≠ []
       then .completedWithUploadErrors else .completed) := by
  refine ⟨?_, ?_, ?_⟩
  · unfold uploadArchiveToDestinations
    exact uploadLoop_eq_flatMap cfg env jobName _ _ job.destinations
  · intro d hd
    cases hl : lookup d cfg.destinations with
    | none => exact Or.inr rfl
    | some dc =>
      left
      have hmem : Effect.newClient d ∈
          (uploadToDestination cfg env jobName (jobArchivePath job env)
            (baseName (jobArchivePath job env)) d).2 := by
        cases hc : env.upClientErr d <;> cases hn : env.upConnErr d <;>
          cases hu : env.uploadErr d <;>
          simp [uploadToDestination, hl, hc, hn, hu]
      unfold uploadArchiveToDestinations
      rw [uploadLoop_eq_flatMap]
      exact List.mem_flatMap.mpr ⟨d, hd, hmem⟩
  · unfold backupJob
    simp only [hdb, hdest, hmk, htar, ne_eq, not_true_eq_false, if_false, ite_false]
    simp [jobArchivePath]

/-- Witness for C4: with two destinations where `destA`'s client construction
fails at upload time, `destB` is still attempted and the run is recorded as a
partial failure. -/
theorem upload_failures_isolated_witness :
    Effect.newClient "destB" ∈
      (uploadArchiveToDestinations exampleTwoDestConfig exampleUploadFailEnv "nightly"
        exampleTwoDestJob (jobArchivePath exampleTwoDestJob exampleUploadFailEnv)).2 ∧
    (backupJob exampleTwoDestConfig exampleUploadFailEnv "nightly"
      exampleTwoDestJob).outcome = .completedWithUploadErrors := by
  have h := upload_failures_isolated exampleTwoDestConfig exampleUploadFailEnv "nightly"
    exampleTwoDestJob rfl rfl rfl rfl
  refine ⟨?_, ?_⟩
  · rcases h.2.1 "destB" (by simp [exampleTwoDestJob]) with hm | hnone
    · exact hm
    · exact absurd hnone (by decide)
  · rw [h.2.2]; decide

/-- **C8.** Every upload the upload phase attempts uses the archive file's
base name as the object key and targets the destination's configured bucket;
in particular all destinations of one run store the archive under one and the
same object key. -/
theorem upload_object_key_uniform (cfg : Config) (env : JobEnv)
    (jobName : String) (job : JobConfig) (archivePath : String) :
    ∀ d b k fp, Effect.uploadAttempt d b k fp ∈
        (uploadArchiveToDestinations cfg env jobName job archivePath).2 →
      k = baseName archivePath ∧ fp = archivePath ∧
      ∃ dc, lookup d cfg.destinations = some dc ∧ b = dc.bucketName := by
  intro d b k fp hmem
  rw [uploadArchiveToDestinations,
    uploadLoop_eq_flatMap cfg env jobName archivePath (baseName archivePath)
      job.destinations] at hmem
  rcases List.mem_flatMap.mp hmem with ⟨d', _, hm⟩
  revert hm
  cases hl : lookup d' cfg.destinations with
  | none => simp [uploadToDestination, hl]
  | some dc =>
    cases hc : env.upClientErr d' <;> cases hn : env.upConnErr d' <;>
      cases hu : env.uploadErr d' <;>
      · intro hm
        simp only [uploadToDestination, hl, hc, hn, hu, List.mem_cons,
          List.not_mem_nil, or_false] at hm
        first
        | (rcases hm with hm | hm
           · cases hm
           · injection hm with h1 h2 h3 h4
             exact ⟨h3, h4, dc, by rw [h1]; exact hl, h2⟩)
        | cases hm

/-- Witness for C8: in the example run the attempted upload stores the
archive under its base name in the destination's configured bucket. -/
theorem upload_object_key_uniform_witness :
    "nightly-2026-10-11-07-30-05.tar.gz" =
      baseName (jobArchivePath exampleGoodJob exampleEnvOK) ∧
    "/backups/nightly-2026-10-11-07-30-05.tar.gz" =
      jobArchivePath exampleGoodJob exampleEnvOK ∧
    ∃ dc, lookup "primary" exampleGoodConfig.destinations = some dc ∧
      "bkt" = dc.bucketName :=
  upload_object_key_uniform exampleGoodConfig exampleEnvOK "nightly" exampleGoodJob
    (jobArchivePath exampleGoodJob exampleEnvOK) "primary" "bkt"
    "nightly-2026-10-11-07-30-05.tar.gz" "/backups/nightly-2026-10-11-07-30-05.tar.gz"
    (by decide)

lemma digitVal_digitChar (n : Nat) (h : n < 10) : digitVal (digitChar n) = n := by
  interval_cases n <;> rfl

lemma parseTimestamp_formatTimestamp (t : GoTime) (h : inRange t) :
    parseTimestamp (formatTimestamp t) = some (secondTuple t) := by
  obtain ⟨h1, h2, h3, h4, h5, h6⟩ := h
  simp only [formatTimestamp, pad4, pad2, List.cons_append, List.nil_append]
  simp only [parseTimestamp, secondTuple]
  rw [digitVal_digitChar (t.year / 1000) (by omega),
    digitVal_digitChar (t.year / 100 % 10) (by omega),
    digitVal_digitChar (t.year / 10 % 10) (by omega),
    digitVal_digitChar (t.year % 10) (by omega),
    digitVal_digitChar (t.month / 10) (by omega),
    digitVal_digitChar (t.month % 10) (by omega),
    digitVal_digitChar (t.day / 10) (by omega),
    digitVal_digitChar (t.day % 10) (by omega),
    digitVal_digitChar (t.hour / 10) (by omega),
    digitVal_digitChar (t.hour % 10) (by omega),
    digitVal_digitChar (t.minute / 10) (by omega),
    digitVal_digitChar (t.minute % 10) (by omega),
    digitVal_digitChar (t.second / 10) (by omega),
    digitVal_digitChar (t.second % 10) (by omega)]
  simp only [Option.some.injEq, Prod.mk.injEq]
  refine ⟨by omega, by omega, by omega, by omega, by omega, by omega⟩

lemma string_data_inj {s t : String} (h : s.data = t.data) : s = t := by
  cases s
  cases t
  exact congrArg String.mk h

lemma string_append_data (s t : String) : (s ++ t).data = s.data ++ t.data := by
  cases s
  cases t
  rfl

/-- **C9 (counterexample).** Two distinct runs started within the same clock
second (the instants differ only in nanoseconds) receive the very same
working-directory path: the claim that paths are distinct for any two
distinct runs is false. -/
theorem backupDir_collision_within_second :
    exampleTime ≠ exampleTimeLater ∧
    backupDirPath { dir := "/backups", name := "nightly" } exampleTime =
      backupDirPath { dir := "/backups", name := "nightly" } exampleTimeLater :=
  ⟨by decide, rfl⟩

/-- **C9 (amended).** Runs of the same job whose start instants differ at
second granularity (any calendar field differs) receive distinct working
directories and distinct archive paths. -/
theorem backupDir_unique_per_second (out : OutputConfig) (t1 t2 : GoTime)
    (h1 : inRange t1) (h2 : inRange t2)
    (hne : secondTuple t1 ≠ secondTuple t2) :
    backupDirPath out t1 ≠ backupDirPath out t2 ∧
    backupDirPath out t1 ++ ".tar.gz" ≠ backupDirPath out t2 ++ ".tar.gz" := by
  have hts : formatTimestamp t1 ≠ formatTimestamp t2 := by
    intro he
    apply hne
    have hp := parseTimestamp_formatTimestamp t1 h1
    rw [he, parseTimestamp_formatTimestamp t2 h2] at hp
    exact ((Option.some.injEq _ _).mp hp).symm
  have hbd : backupDirPath out t1 ≠ backupDirPath out t2 := by
    intro he
    apply hts
    unfold backupDirPath joinPath at he
    have hdata := congrArg String.data he
    simp only [string_append_data] at hdata
    have h1' := List.append_cancel_left hdata
    exact List.append_cancel_left h1'
  refine ⟨hbd, fun he => hbd ?_⟩
  apply string_data_inj
  have hdata := congrArg String.data he
  simp only [string_append_data] at hdata
  exact List.append_cancel_right hdata

/-- Witness for the amended C9: instants one second apart give distinct
working-directory and archive paths. -/
theorem backupDir_unique_per_second_witness :
    backupDirPath { dir := "/backups", name := "nightly" } exampleTime ≠
      backupDirPath { dir := "/backups", name := "nightly" } ⟨2026, 10, 11, 7, 30, 6, 0⟩ ∧
    backupDirPath { dir := "/backups", name := "nightly" } exampleTime ++ ".tar.gz" ≠
      backupDirPath { dir := "/backups", name := "nightly" } ⟨2026, 10, 11, 7, 30, 6, 0⟩ ++
        ".tar.gz" :=
  backupDir_unique_per_second { dir := "/backups", name := "nightly" }
    exampleTime ⟨2026, 10, 11, 7, 30, 6, 0⟩ (by decide) (by decide) (by decide)

/-- **C7 (counterexample).** The working directory is not named with a
14-digit compact `YYYYMMDDHHMMSS` timestamp: at 2026-10-11 07:30:05 the
generated path differs from the compact-timestamp path. -/
theorem backupDir_not_compact14 :
    backupDirPath { dir := "/backups", name := "nightly" } exampleTime ≠
      joinPath "/backups" ("nightly" ++ "-" ++ "20261011073005") := by
  decide

/-- **C7 (amended).** Once a job's working directory is created, it lives
under the job's configured output directory and is named
`<outputName>-<YYYY-MM-DD-HH-MM-SS>` (a 19-character dash-separated
timestamp), the run's first effect is creating exactly that directory, and
the archive is the sibling path `<that>.tar.gz`. -/
theorem workdir_archive_naming (cfg : Config) (env : JobEnv)
    (jobName : String) (job : JobConfig)
    (hdb : validateJobDatabases cfg env jobName job = [])
    (hdest : validateJobDestinations cfg env jobName job = [])
    (hmk : env.mkdirErr = none) :
    backupDirPath job.output env.time =
      joinPath job.output.dir
        (job.output.name ++ "-" ++ String.mk (formatTimestamp env.time)) ∧
    (formatTimestamp env.time).length = 19 ∧
    (∃ rest, (backupJob cfg env jobName job).trace =
      Effect.mkdirAll (backupDirPath job.output env.time) :: rest) ∧
    Effect.removeFile (backupDirPath job.output env.time ++ ".tar.gz") ∈
      (backupJob cfg env jobName job).trace := by
  refine ⟨rfl, by simp [formatTimestamp, pad4, pad2], ?_, ?_⟩
  · unfold backupJob
    simp only [hdb, hdest, hmk, ne_eq, not_true_eq_false, if_false, ite_false]
    cases htar : env.tarErr <;> exact ⟨_, rfl⟩
  · unfold backupJob
    simp only [hdb, hdest, hmk, ne_eq, not_true_eq_false, if_false, ite_false]
    cases htar : env.tarErr <;> simp

/-- Witness for the amended C7: the example run's working directory and
archive path have the stated shape. -/
theorem workdir_archive_naming_witness :
    backupDirPath exampleGoodJob.output exampleEnvOK.time =
      joinPath exampleGoodJob.output.dir
        (exampleGoodJob.output.name ++ "-" ++
          String.mk (formatTimestamp exampleEnvOK.time)) ∧
    (formatTimestamp exampleEnvOK.time).length = 19 ∧
    (∃ rest, (backupJob exampleGoodConfig exampleEnvOK "nightly" exampleGoodJob).trace =
      Effect.mkdirAll (backupDirPath exampleGoodJob.output exampleEnvOK.time) :: rest) ∧
    Effect.removeFile (backupDirPath exampleGoodJob.output exampleEnvOK.time ++ ".tar.gz") ∈
      (backupJob exampleGoodConfig exampleEnvOK "nightly" exampleGoodJob).trace :=
  workdir_archive_naming exampleGoodConfig exampleEnvOK "nightly" exampleGoodJob rfl rfl rfl

lemma ValidateAllDestinationsLoop_crash (env : DestEnv) :
    ∀ (l : List (String × DestinationConfig)) (acc : List String),
      (∃ p ∈ l, env.loadCfgErr p.1 ≠ none) →
      ValidateAllDestinationsLoop env l acc = .error ()
  | [], acc, h => by simp at h
  | (n, dc) :: rest, acc, h => by
    cases hc : env.loadCfgErr n with
    | some e =>
      simp [ValidateAllDestinationsLoop, NewS3Client, validateConnectionPtr, hc]
    | none =>
      have hrest : ∃ p ∈ rest, env.loadCfgErr p.1 ≠ none := by
        rcases h with ⟨p, hp, hne⟩
        rcases List.mem_cons.mp hp with rfl | hp'
        · exact absurd hc hne
        · exact ⟨p, hp', hne⟩
      simp only [ValidateAllDestinationsLoop, NewS3Client, validateConnectionPtr, hc]
      exact ValidateAllDestinationsLoop_crash env rest _ hrest

/-- **C10.** When client construction fails for some configured destination
(`NewS3Client` returning a nil client with an error), `ValidateAllDestinations`
still invokes `ValidateConnection` on that nil client, so the run crashes on a
nil-pointer dereference instead of recording the construction error and
moving to the next destination. -/
theorem validateAllDestinations_nil_deref (env : DestEnv) (cfg : Config)
    (h : ∃ p ∈ cfg.destinations, env.loadCfgErr p.1 ≠ none) :
    ValidateAllDestinations env cfg = .error () := by
  unfold ValidateAllDestinations
  rw [ValidateAllDestinationsLoop_crash env cfg.destinations [] h]

/-- Witness for C10: one destination whose AWS config load fails crashes the
whole destination-validation pass. -/
theorem validateAllDestinations_nil_deref_witness :
    ValidateAllDestinations exampleDestEnvFail exampleGoodConfig = .error () :=
  validateAllDestinations_nil_deref exampleDestEnvFail exampleGoodConfig
    ⟨("primary", exampleDest), by simp [exampleGoodConfig], by simp [exampleDestEnvFail]⟩

lemma lookup_setChild_self (cs : List (String × FsTree)) (n : String) (t : FsTree) :
    lookup n (setChild cs n t) = some t := by
  induction cs with
  | nil => simp [setChild, lookup]
  | cons hd tl ih =>
    obtain ⟨n', t'⟩ := hd
    by_cases h : n' = n
    · subst h; simp [setChild, lookup]
    · simp [setChild, lookup, h, ih]

lemma childD_setChild (cs : List (String × FsTree)) (n : String) (t : FsTree) :
    childD (setChild cs n t) n = t := by
  simp [childD, lookup_setChild_self]

lemma setChild_setChild (cs : List (String × FsTree)) (n : String) (t1 t2 : FsTree) :
    setChild (setChild cs n t1) n t2 = setChild cs n t2 := by
  induction cs with
  | nil => simp [setChild]
  | cons hd tl ih =>
    obtain ⟨n', t'⟩ := hd
    by_cases h : n' = n
    · subst h; simp [setChild]
    · simp [setChild, h, ih]

lemma setChild_of_lookup_none (cs : List (String × FsTree)) (n : String) (t : FsTree)
    (h : lookup n cs = none) : setChild cs n t = cs ++ [(n, t)] := by
  induction cs with
  | nil => simp [setChild]
  | cons hd tl ih =>
    obtain ⟨n', t'⟩ := hd
    by_cases hn : n' = n
    · subst hn; simp [lookup] at h
    · simp only [lookup, if_neg hn] at h
      simp [setChild, hn, ih h]

lemma lookup_append_none {β : Type} (k : String) (l1 l2 : List (String × β)) :
    lookup k (l1 ++ l2) = none ↔ lookup k l1 = none ∧ lookup k l2 = none := by
  induction l1 with
  | nil => simp [lookup]
  | cons hd tl ih =>
    obtain ⟨n', v⟩ := hd
    by_cases h : n' = k
    · subst h; simp [lookup, ih]
    · simp [lookup, h, ih]

lemma walkTree_ne_nil (t : FsTree) : walkTree t ≠ [] := by
  cases t <;> simp [walkTree]

lemma foldl_applyEntry_prepend (n : String) :
    ∀ (es : List TarEntry) (cs : List (String × FsTree)), es ≠ [] →
      List.foldl applyEntry (FsTree.dir cs)
          (es.map (fun e => ⟨n :: e.path, e.kind⟩)) =
        FsTree.dir (setChild cs n (List.foldl applyEntry (childD cs n) es))
  | [], _, h => absurd rfl h
  | [e], cs, _ => by
    obtain ⟨p, k⟩ := e
    simp only [List.map_cons, List.map_nil, List.foldl_cons, List.foldl_nil]
    rfl
  | e1 :: e2 :: es, cs, _ => by
    obtain ⟨p, k⟩ := e1
    have hstep : applyEntry (FsTree.dir cs) ⟨n :: p, k⟩ =
        FsTree.dir (setChild cs n (applyEntry (childD cs n) ⟨p, k⟩)) := rfl
    have hrec := foldl_applyEntry_prepend n (e2 :: es)
      (setChild cs n (applyEntry (childD cs n) ⟨p, k⟩)) (by simp)
    calc
      List.foldl applyEntry (FsTree.dir cs)
          ((⟨p, k⟩ :: e2 :: es : List TarEntry).map (fun e => ⟨n :: e.path, e.kind⟩))
        = List.foldl applyEntry
            (FsTree.dir (setChild cs n (applyEntry (childD cs n) ⟨p, k⟩)))
            ((e2 :: es).map (fun e => ⟨n :: e.path, e.kind⟩)) := by
          rw [List.map_cons, List.foldl_cons, hstep]
      _ = FsTree.dir (setChild (setChild cs n (applyEntry (childD cs n) ⟨p, k⟩)) n
            (List.foldl applyEntry
              (childD (setChild cs n (applyEntry (childD cs n) ⟨p, k⟩)) n)
              (e2 :: es))) := hrec
      _ = FsTree.dir (setChild cs n
            (List.foldl applyEntry (applyEntry (childD cs n) ⟨p, k⟩) (e2 :: es))) := by
          rw [childD_setChild, setChild_setChild]
      _ = FsTree.dir (setChild cs n
            (List.foldl applyEntry (childD cs n) (⟨p, k⟩ :: e2 :: es))) := by
          simp only [List.foldl_cons]

mutual
lemma extract_walkTree : ∀ (t : FsTree), wfTree t = true →
    List.foldl applyEntry (FsTree.dir []) (walkTree t) = t
  | .file d, _ => by
    simp only [walkTree, List.foldl_cons, List.foldl_nil]
    rfl
  | .dir cs, h => by
    simp only [walkTree, List.foldl_cons]
    have h0 : applyEntry (FsTree.dir []) ⟨[], .dirE⟩ = FsTree.dir [] := rfl
    rw [h0]
    have h2 := extract_walkChildren cs [] (by simpa [wfTree] using h)
      (by intro p _; simp [lookup])
    simpa using h2

lemma extract_walkChildren : ∀ (cs acc : List (String × FsTree)),
      wfChildren cs = true → (∀ p ∈ cs, lookup p.1 acc = none) →
      List.foldl applyEntry (FsTree.dir acc) (walkChildren cs) =
        FsTree.dir (acc ++ cs)
  | [], acc, _, _ => by simp [walkChildren]
  | (n, t) :: rest, acc, h, hacc => by
    have hw : (!(rest.any (fun c => c.1 == n))) = true ∧
        wfTree t = true ∧ wfChildren rest = true := by
      simpa [wfChildren, Bool.and_eq_true, and_assoc] using h
    have hnacc : lookup n acc = none := hacc (n, t) (by simp)
    have hfresh : ∀ p ∈ rest, lookup p.1 (acc ++ [(n, t)]) = none := by
      intro p hp
      rw [lookup_append_none]
      refine ⟨hacc p (by simp [hp]), ?_⟩
      have hne : p.1 ≠ n := by
        have h3 := hw.1
        simp only [Bool.not_eq_true', List.any_eq_false] at h3
        simpa using h3 p hp
      simp [lookup, Ne.symm hne]
    simp only [walkChildren, List.foldl_append]
    rw [foldl_applyEntry_prepend n (walkTree t) acc (walkTree_ne_nil t)]
    rw [show childD acc n = FsTree.dir [] from by simp [childD, hnacc]]
    rw [extract_walkTree t hw.2.1]
    rw [setChild_of_lookup_none acc n t hnacc]
    rw [extract_walkChildren rest (acc ++ [(n, t)]) hw.2.2 hfresh]
    simp
end

/-- **C6.** Archiving a well-formed directory tree with `CreateTarGz` and
then extracting the resulting archive reproduces the original relative paths
and file contents exactly, including empty subdirectories (whose directory
entries are written even though they contain no files). -/
theorem tar_roundtrip (t : FsTree) (h : wfTree t = true) :
    extract (walkTree t) = t := by
  unfold extract
  exact extract_walkTree t h

/-- Witness for C6: round trip of a tree containing an empty subdirectory, a
top-level file, and a nested file. -/
theorem tar_roundtrip_witness :
    wfTree exampleTree = true ∧ extract (walkTree exampleTree) = exampleTree :=
  ⟨rfl, tar_roundtrip exampleTree rfl⟩

end BackupCompanion
